import Mathlib

/-!
Verification of the notifier dispatch core.

This file is a shallow embedding of the dispatch pipeline of the notifier
repository: the notification data model (internal/domain/notification.go),
the in-memory local queue (internal/queue, the LocalQueue type), and the
dispatch service facade with its worker processing loop
(internal/service/service.go).

Modelling conventions:
- Go maps are association lists with lookup aget, update aset, delete aremove.
- Go pointers: the service notification map and the queue envelopes alias the
  same Notification objects, so the heap of notifications is a single
  association list keyed by notification id, and queue envelopes reference
  notifications by id.  Every field write through a pointer is a write to the
  heap entry under the id the object was looked up at.
- Envelope ids: Go draws fresh uuid strings; the model draws fresh Nat ids
  from a counter, which preserves exactly the property used (freshness).
- Machine integers (Go int) are Int; overflow is irrelevant at the counts the
  program reaches and no claim depends on it.
- Context cancellation and the select nondeterminism are a Bool input
  ctxCanceled: true selects the ctx.Done branch of the corresponding select.
- time.Now is an Int input tnow.
- Disk persistence is disabled (persistToDisk false), under which
  persistToDiskSync returns nil; the persistence branches therefore reduce to
  returning nil and are omitted.
-/

namespace NotifierProof

/-- Association list lookup (Go map read). -/
def aget {κ α : Type} [DecidableEq κ] : List (κ × α) → κ → Option α
  | [], _ => none
  | (k0, v0) :: t, k => if k0 = k then some v0 else aget t k

/-- Association list update or insert (Go map write). -/
def aset {κ α : Type} [DecidableEq κ] : List (κ × α) → κ → α → List (κ × α)
  | [], k, v => [(k, v)]
  | (k0, v0) :: t, k, v => if k0 = k then (k, v) :: t else (k0, v0) :: aset t k v

/-- Association list deletion (Go map delete). -/
def aremove {κ α : Type} [DecidableEq κ] : List (κ × α) → κ → List (κ × α)
  | [], _ => []
  | (k0, v0) :: t, k => if k0 = k then aremove t k else (k0, v0) :: aremove t k

/-- NotificationStatus from internal/domain/notification.go. -/
inductive NotificationStatus where
  | pending
  | queued
  | processing
  | sent
  | failed
  | retrying
deriving DecidableEq

/-- Notification from internal/domain/notification.go.  The channel type is a
string as in the source; metadata and scheduledFor are never consulted by the
dispatch core and are omitted. -/
structure Notification where
  id : String
  ntype : String
  account : String
  priority : Int
  subject : String
  body : String
  recipients : List String
  status : NotificationStatus
  createdAt : Int
  sentAt : Option Int
  retryCount : Int
  maxRetries : Int
  lastError : String
deriving DecidableEq

/-- The success flag and error text of a NotificationResult, the part of the
adapter response that processNotification reads. -/
structure SendResult where
  success : Bool
  error : String
deriving DecidableEq

/-- NotificationFilter from internal/domain/notification.go. -/
structure NotificationFilter where
  ids : List String
  types : List String
  statuses : List NotificationStatus
  recipients : List String
  createdAfter : Option Int
  createdBefore : Option Int
  limit : Int
  offset : Int
deriving DecidableEq

/-- QueueMessage: the queue envelope.  notifId models the Go pointer to the
shared Notification; the envelope id is a fresh Nat in place of a uuid. -/
structure QueueMessage where
  id : Nat
  notifId : String
  attempt : Int
deriving DecidableEq

/-- LocalQueue state: the buffered channel is the list buf (front = next to
be received), messages is the bookkeeping map, nextId draws fresh envelope
ids, closed is the closed flag. -/
structure LocalQueue where
  buf : List QueueMessage
  messages : List (Nat × QueueMessage)
  nextId : Nat
  closed : Bool
deriving DecidableEq

/-- The notification heap: all live Notification objects keyed by id.  This
is simultaneously the service notifications map, since the map stores the
same pointers. -/
abbrev Heap := List (String × Notification)

/-- A status write through a notification pointer: update the heap entry the
pointer was obtained from. -/
def heapSetStatus (h : Heap) (id : String) (st : NotificationStatus) : Heap :=
  match aget h id with
  | none => h
  | some n => aset h id { n with status := st }

/-- LocalQueue.Enqueue.  Fails when the queue is closed, or when the calling
context is cancelled before the buffer admits the message; on admission the
envelope is recorded in buf and messages and the notification status becomes
queued. -/
def qEnqueue (ctxCanceled : Bool) (q : LocalQueue) (h : Heap) (nid : String) :
    LocalQueue × Heap × Option String :=
  if q.closed then (q, h, some "queue is closed")
  else if ctxCanceled then (q, h, some "context canceled")
  else
    let msg : QueueMessage := { id := q.nextId, notifId := nid, attempt := 0 }
    ({ q with
        buf := q.buf ++ [msg]
        messages := aset q.messages msg.id msg
        nextId := q.nextId + 1 },
      heapSetStatus h nid .queued, none)

/-- The per-item loop of LocalQueue.EnqueueBatch; items admitted before a
cancellation keep their effects. -/
def qEnqueueBatchLoop (ctxCanceled : Bool) :
    LocalQueue → Heap → List String → LocalQueue × Heap × Option String
  | q, h, [] => (q, h, none)
  | q, h, nid :: rest =>
    if ctxCanceled then (q, h, some "context canceled")
    else
      let msg : QueueMessage := { id := q.nextId, notifId := nid, attempt := 0 }
      qEnqueueBatchLoop ctxCanceled
        { q with
          buf := q.buf ++ [msg]
          messages := aset q.messages msg.id msg
          nextId := q.nextId + 1 }
        (heapSetStatus h nid .queued) rest

/-- LocalQueue.EnqueueBatch. -/
def qEnqueueBatch (ctxCanceled : Bool) (q : LocalQueue) (h : Heap) (nids : List String) :
    LocalQueue × Heap × Option String :=
  if q.closed then (q, h, some "queue is closed")
  else qEnqueueBatchLoop ctxCanceled q h nids

/-- LocalQueue.Dequeue.  On receive, the attempt counter of the (shared)
envelope is incremented and the notification becomes processing; an empty
buffer is the deadline-exceeded outcome of the bounded wait. -/
def qDequeue (q : LocalQueue) (h : Heap) :
    Option QueueMessage × LocalQueue × Heap × Option String :=
  if q.closed then (none, q, h, some "queue is closed")
  else
    match q.buf with
    | [] => (none, q, h, some "context deadline exceeded")
    | m :: rest =>
      let m1 := { m with attempt := m.attempt + 1 }
      (some m1, { q with buf := rest, messages := aset q.messages m.id m1 },
        heapSetStatus h m.notifId .processing, none)

/-- LocalQueue.Ack: no closed check; an unknown envelope id is silently
ignored; a known one marks the notification sent and drops bookkeeping. -/
def qAck (q : LocalQueue) (h : Heap) (msgId : Nat) : LocalQueue × Heap × Option String :=
  match aget q.messages msgId with
  | none => (q, h, none)
  | some m =>
    ({ q with messages := aremove q.messages msgId }, heapSetStatus h m.notifId .sent, none)

/-- LocalQueue.Nack: an unknown envelope id is an error; with requeue the
notification first becomes retrying (a pointer write that persists even when
the subsequent re-enqueue select fails), then the same envelope re-enters the
back of the buffer; without requeue the notification becomes failed and
bookkeeping is dropped.  No closed check happens before the map lookup. -/
def qNack (ctxCanceled : Bool) (q : LocalQueue) (h : Heap) (msgId : Nat) (requeue : Bool) :
    LocalQueue × Heap × Option String :=
  match aget q.messages msgId with
  | none => (q, h, some ("message not found: " ++ toString msgId))
  | some m =>
    if requeue then
      let h1 := heapSetStatus h m.notifId .retrying
      if q.closed then (q, h1, some "queue is closed")
      else if ctxCanceled then (q, h1, some "context canceled")
      else ({ q with buf := q.buf ++ [m] }, h1, none)
    else
      ({ q with messages := aremove q.messages msgId }, heapSetStatus h m.notifId .failed, none)

/-- LocalQueue.Size: no closed check, never an error. -/
def qSize (q : LocalQueue) : Int × Option String :=
  ((q.buf.length : Int), none)

/-- LocalQueue.Purge: drains the buffer and resets bookkeeping; no closed
check, never an error. -/
def qPurge (q : LocalQueue) (h : Heap) : LocalQueue × Heap × Option String :=
  ({ q with buf := [], messages := [] }, h, none)

/-- LocalQueue.Close. -/
def qClose (q : LocalQueue) : LocalQueue × Option String :=
  ({ q with closed := true }, none)

/-- A fresh open queue (NewLocalQueue with persistence disabled). -/
def emptyQueue : LocalQueue :=
  { buf := [], messages := [], nextId := 0, closed := false }

/-- The NotificationService state: the notifications map (the heap) and the
queue. -/
structure ServiceState where
  notifications : Heap
  queue : LocalQueue
deriving DecidableEq

/-- NotificationService.storeNotification. -/
def storeNotification (st : ServiceState) (n : Notification) : ServiceState :=
  { st with notifications := aset st.notifications n.id n }

/-- NotificationService.Send: stores the notification first, then enqueues;
the Bool is success of the whole call.  On an enqueue failure the stored
entry is not rolled back. -/
def Send (ctxCanceled : Bool) (st : ServiceState) (n : Notification) :
    ServiceState × Bool :=
  let st1 := storeNotification st n
  let r := qEnqueue ctxCanceled st1.queue st1.notifications n.id
  ({ notifications := r.2.1, queue := r.1 }, r.2.2.isNone)

/-- NotificationService.CancelNotification. -/
def CancelNotification (st : ServiceState) (id : String) : ServiceState × Option String :=
  match aget st.notifications id with
  | none => (st, some ("notification not found: " ++ id))
  | some n =>
    if n.status = .sent then (st, some "notification already sent")
    else
      ({ st with
          notifications := aset st.notifications id
            { n with status := .failed, lastError := "cancelled by user" } }, none)

/-- NotificationService.RetryNotification: for a non-sent stored
notification, reset retryCount to 0 and status to pending (pointer writes,
visible in the map), then re-run Send. -/
def RetryNotification (ctxCanceled : Bool) (st : ServiceState) (id : String) :
    ServiceState × Option String :=
  match aget st.notifications id with
  | none => (st, some ("notification not found: " ++ id))
  | some n =>
    if n.status = .sent then (st, some "notification already sent")
    else
      let n1 := { n with retryCount := 0, status := .pending }
      let st1 := { st with notifications := aset st.notifications id n1 }
      let r := Send ctxCanceled st1 n1
      (r.1, if r.2 then none else some "failed to enqueue")

/-- NotificationService.matchesFilter.  Recipient matching is exact string
equality between a filter entry and a notification recipient entry. -/
def matchesFilter (n : Notification) (f : NotificationFilter) : Bool :=
  (f.ids.isEmpty || f.ids.contains n.id) &&
  (f.types.isEmpty || f.types.contains n.ntype) &&
  (f.statuses.isEmpty || f.statuses.contains n.status) &&
  (f.recipients.isEmpty || f.recipients.any (fun fr => n.recipients.contains fr)) &&
  (match f.createdAfter with
    | none => true
    | some t => !(decide (n.createdAt < t))) &&
  (match f.createdBefore with
    | none => true
    | some t => !(decide (t < n.createdAt)))

/-- NotificationService.ListNotifications: filter, then drop the offset only
when 0 < offset < length, then truncate to the limit only when
0 < limit < remaining length. -/
def ListNotifications (st : ServiceState) (f : NotificationFilter) : List Notification :=
  let results := (st.notifications.map Prod.snd).filter (fun n => matchesFilter n f)
  let results1 :=
    if 0 < f.offset ∧ f.offset < (results.length : Int) then results.drop f.offset.toNat
    else results
  if 0 < f.limit ∧ f.limit < (results1.length : Int) then results1.take f.limit.toNat
  else results1

/-- The outcome of one delivery attempt, as processNotification observes it:
either factory.Create failed, or the adapter ran and returned an error and a
result. -/
inductive AttemptOutcome where
  | createFailed (err : String)
  | attempt (err : Option String) (res : SendResult)
deriving DecidableEq

/-- NotificationService.processNotification on a dequeued envelope.  All
notification field writes go through the shared pointer, i.e. to the heap
entry at the envelope notification id; the trailing updateNotification
re-stores the same object under its id and is a no-op on the heap. -/
def processNotification (ctxCanceled : Bool) (tnow : Int) (st : ServiceState)
    (msg : QueueMessage) (outcome : AttemptOutcome) : ServiceState :=
  match aget st.notifications msg.notifId with
  | none => st
  | some n =>
    match outcome with
    | .createFailed e =>
      let h1 := aset st.notifications msg.notifId
        { n with status := .failed, lastError := "failed to create notifier: " ++ e }
      let r := qNack ctxCanceled st.queue h1 msg.id false
      { notifications := r.2.1, queue := r.1 }
    | .attempt err res =>
      if err.isSome || !res.success then
        let lastErr := match err with | some s => s | none => res.error
        let n1 := { n with retryCount := n.retryCount + 1, lastError := lastErr }
        if n1.retryCount < n.maxRetries then
          let h1 := aset st.notifications msg.notifId { n1 with status := .retrying }
          let r := qNack ctxCanceled st.queue h1 msg.id true
          { notifications := r.2.1, queue := r.1 }
        else
          let h1 := aset st.notifications msg.notifId { n1 with status := .failed }
          let r := qNack ctxCanceled st.queue h1 msg.id false
          { notifications := r.2.1, queue := r.1 }
      else
        let h1 := aset st.notifications msg.notifId
          { n with status := .sent, sentAt := some tnow }
        let r := qAck st.queue h1 msg.id
        { notifications := r.2.1, queue := r.1 }

/-- One worker loop iteration that found a message: dequeue, then process it
with the adapter outcome for the attempt number the envelope now carries. -/
def workerStep (ctxCanceled : Bool) (tnow : Int) (outcomes : Int → AttemptOutcome)
    (st : ServiceState) : ServiceState :=
  let d := qDequeue st.queue st.notifications
  match d.1 with
  | none => { notifications := d.2.2.1, queue := d.2.1 }
  | some m =>
    processNotification ctxCanceled tnow { notifications := d.2.2.1, queue := d.2.1 } m
      (outcomes m.attempt)

/-- The worker pool draining the queue: iterate workerStep until the buffer
is empty, with explicit fuel. -/
def drain (ctxCanceled : Bool) (tnow : Int) (outcomes : Int → AttemptOutcome) :
    Nat → ServiceState → ServiceState
  | 0, st => st
  | fuel + 1, st =>
    if st.queue.buf.isEmpty then st
    else drain ctxCanceled tnow outcomes fuel (workerStep ctxCanceled tnow outcomes st)

/-- An attempt outcome that counts as a delivery failure in
processNotification: the adapter ran and returned an error or a non-success
result. -/
def isFailedAttempt : AttemptOutcome → Bool
  | .attempt e r => e.isSome || !r.success
  | .createFailed _ => false

/-- An attempt outcome that counts as a delivery success in
processNotification. -/
def isSuccessAttempt : AttemptOutcome → Bool
  | .attempt e r => e.isNone && r.success
  | .createFailed _ => false

/-- The whole system state: service state plus the envelopes dequeued by
workers and not yet processed. -/
structure SysState where
  svc : ServiceState
  inflight : List QueueMessage
deriving DecidableEq

/-- All envelopes currently owned by the queue buffer or by a worker. -/
def live (s : SysState) : List QueueMessage :=
  s.svc.queue.buf ++ s.inflight

/-- States reachable by the service operations, under the disciplined use the
amended invariant claim requires: send admits only fresh notifications
(unknown id, status pending, retryCount 0, maxRetries at least 1), and retry
is invoked only when no envelope of the notification is still live. -/
inductive Reachable : SysState → Prop where
  | init : Reachable ⟨⟨[], emptyQueue⟩, []⟩
  | send (s : SysState) (n : Notification) (c : Bool) :
      Reachable s →
      aget s.svc.notifications n.id = none →
      n.retryCount = 0 → 1 ≤ n.maxRetries → n.status = .pending →
      Reachable ⟨(Send c s.svc n).1, s.inflight⟩
  | dequeueStep (s : SysState) (m : QueueMessage) (q : LocalQueue) (h : Heap)
      (e : Option String) :
      Reachable s →
      qDequeue s.svc.queue s.svc.notifications = (some m, q, h, e) →
      Reachable ⟨⟨h, q⟩, m :: s.inflight⟩
  | processStep (s : SysState) (l1 l2 : List QueueMessage) (m : QueueMessage)
      (out : AttemptOutcome) (c : Bool) (t : Int) :
      Reachable s →
      s.inflight = l1 ++ m :: l2 →
      Reachable ⟨processNotification c t s.svc m out, l1 ++ l2⟩
  | cancelStep (s : SysState) (id : String) :
      Reachable s →
      Reachable ⟨(CancelNotification s.svc id).1, s.inflight⟩
  | retryStep (s : SysState) (id : String) (c : Bool) :
      Reachable s →
      (∀ m, m ∈ live s → m.notifId ≠ id) →
      Reachable ⟨(RetryNotification c s.svc id).1, s.inflight⟩

/-- A notification counts as active while it sits in the retry pipeline. -/
def activeStatus (n : Notification) : Prop :=
  n.status = .queued ∨ n.status = .processing ∨ n.status = .retrying

/-- The inductive invariant for the retry-accounting claim: queue bookkeeping
is consistent, live envelopes are singletons per notification, and every
notification keeps retryCount below maxRetries while an envelope of it is
live or its status is active. -/
def Inv (s : SysState) : Prop :=
  (∀ id n, aget s.svc.notifications id = some n → n.id = id) ∧
  (∀ m, m ∈ live s → aget s.svc.queue.messages m.id = some m) ∧
  (∀ k m, aget s.svc.queue.messages k = some m → k = m.id ∧ m.id < s.svc.queue.nextId) ∧
  ((live s).map (fun m => m.id)).Nodup ∧
  ((live s).map (fun m => m.notifId)).Nodup ∧
  (∀ m, m ∈ live s → (aget s.svc.notifications m.notifId).isSome = true) ∧
  (∀ m n, m ∈ live s → aget s.svc.notifications m.notifId = some n →
      n.retryCount < n.maxRetries) ∧
  (∀ id n, aget s.svc.notifications id = some n →
      1 ≤ n.maxRetries ∧ (activeStatus n → n.retryCount < n.maxRetries))

/-- The recipient criterion as the spec words it (refinement reference for
the list claim): the filter entry occurs as a substring of some recipient
entry. -/
def strContainsSub (hay needle : String) : Bool :=
  (List.range (hay.toList.length + 1)).any
    (fun i => needle.toList.isPrefixOf (hay.toList.drop i))

/-- The recipient criterion as the spec words it, continued: match when the
filter entry is a substring of at least one recipient entry. -/
def specRecipientMatch (f : NotificationFilter) (n : Notification) : Bool :=
  f.recipients.any (fun fr => n.recipients.any (fun nr => strContainsSub nr fr))

/-- The list of stored notifications matching a filter, before pagination. -/
def matching (st : ServiceState) (f : NotificationFilter) : List Notification :=
  (st.notifications.map Prod.snd).filter (fun n => matchesFilter n f)

/-- Pagination with the offset ignored: only the limit truncation. -/
def limitOnly (lim : Int) (l : List Notification) : List Notification :=
  if 0 < lim ∧ lim < (l.length : Int) then l.take lim.toNat else l

/-- A concrete notification template for counterexample traces. -/
def mkNotif (id0 : String) (rc mr : Int) : Notification :=
  { id := id0, ntype := "stdout", account := "", priority := 0, subject := "S",
    body := "B", recipients := ["x"], status := .pending, createdAt := 0,
    sentAt := none, retryCount := rc, maxRetries := mr, lastError := "" }

/-- A concrete always-failing adapter outcome. -/
def failOut : AttemptOutcome := .attempt (some "boom") { success := false, error := "" }

/-- A concrete successful adapter outcome. -/
def okOut : AttemptOutcome := .attempt none { success := true, error := "" }

/-- A single-notification mid-run service state: one stored notification and
one live envelope referencing it. -/
def singleState (n : Notification) (eid : Nat) (att : Int) (nid : Nat) : ServiceState :=
  { notifications := [(n.id, n)]
    queue :=
      { buf := [⟨eid, n.id, att⟩]
        messages := [(eid, ⟨eid, n.id, att⟩)]
        nextId := nid
        closed := false } }

/-- The empty service state. -/
def emptyState : ServiceState := { notifications := [], queue := emptyQueue }

/-- Trace: send a notification with maxRetries 0 against an always-failing
adapter and drain the pool. -/
def c1Trace : ServiceState :=
  drain false 0 (fun _ => failOut) 5 (Send false emptyState (mkNotif "n1" 0 0)).1

/-- Trace: send a notification with maxRetries 1 against an adapter that
fails on attempt 1 and would succeed on attempt 2, and drain the pool. -/
def c2Trace : ServiceState :=
  drain false 7 (fun a => if a < 2 then failOut else okOut) 5
    (Send false emptyState (mkNotif "n1" 0 1)).1

/-- Trace: send a notification, then cancel it while its envelope is still
queued. -/
def c3AfterCancel : ServiceState :=
  (CancelNotification (Send false emptyState (mkNotif "n1" 0 3)).1 "n1").1

/-- Trace: after the cancellation, a worker dequeues the stale envelope and
the adapter call succeeds. -/
def c3Final : ServiceState :=
  workerStep false 7 (fun _ => okOut) c3AfterCancel

/-- Trace: a notification driven to failed with lastError boom by an
always-failing adapter. -/
def c4Failed : ServiceState :=
  drain false 0 (fun _ => failOut) 3 (Send false emptyState (mkNotif "n1" 0 1)).1

/-- Trace: cancel the already-failed notification. -/
def c4AfterCancel : ServiceState × Option String :=
  CancelNotification c4Failed "n1"

/-- Trace for the invariant claim: send with maxRetries 1, then invoke retry
twice while the earlier envelopes are still queued, so three envelopes alias
the same notification. -/
def c5StC : ServiceState :=
  (RetryNotification false
    ((RetryNotification false (Send false emptyState (mkNotif "n1" 0 1)).1 "n1").1) "n1").1

/-- Trace continued: dequeue and fail the first stale envelope. -/
def c5P1 : ServiceState :=
  let d := qDequeue c5StC.queue c5StC.notifications
  processNotification false 0 ⟨d.2.2.1, d.2.1⟩ (d.1.getD ⟨99, "", 0⟩) failOut

/-- Trace continued: dequeue and fail the second stale envelope. -/
def c5P2 : ServiceState :=
  let d := qDequeue c5P1.queue c5P1.notifications
  processNotification false 0 ⟨d.2.2.1, d.2.1⟩ (d.1.getD ⟨99, "", 0⟩) failOut

/-- Trace continued: dequeue the third stale envelope; the notification is
now processing with retryCount 2 and maxRetries 1. -/
def c5Heap3 : Heap :=
  (qDequeue c5P2.queue c5P2.notifications).2.2.1

/-- A closed local queue with empty buffer and bookkeeping. -/
def c6ClosedQueue : LocalQueue :=
  { buf := [], messages := [], nextId := 0, closed := true }

/-- A service state whose queue has already been closed. -/
def c7ClosedState : ServiceState :=
  { notifications := [], queue := { emptyQueue with closed := true } }

/-- A stored notification whose only recipient is the string foobar. -/
def c9Notif : Notification :=
  { mkNotif "n1" 0 3 with recipients := ["foobar"] }

/-- A service state storing only that notification. -/
def c9State : ServiceState :=
  { notifications := [("n1", c9Notif)], queue := emptyQueue }

/-- A filter whose only criterion is the recipient string foo. -/
def c9Filter : NotificationFilter :=
  { ids := [], types := [], statuses := [], recipients := ["foo"],
    createdAfter := none, createdBefore := none, limit := 0, offset := 0 }

/-- A filter with no criteria and offset 5, larger than any match count in
the one-notification state. -/
def c10Filter : NotificationFilter :=
  { ids := [], types := [], statuses := [], recipients := [],
    createdAfter := none, createdBefore := none, limit := 0, offset := 5 }

/-- A one-notification service state for the offset witness. -/
def c10State : ServiceState :=
  { notifications := [("n1", mkNotif "n1" 0 3)], queue := emptyQueue }

/-! Association list lemmas. -/

theorem aget_aset_self {κ α : Type} [DecidableEq κ] (l : List (κ × α)) (k : κ) (v : α) :
    aget (aset l k v) k = some v := by
  induction l with
  | nil => simp [aget, aset]
  | cons p t ih =>
    obtain ⟨k0, v0⟩ := p
    by_cases h : k0 = k
    · simp [aset, h, aget]
    · simp [aset, h, aget, ih]

theorem aget_aset_ne {κ α : Type} [DecidableEq κ] (l : List (κ × α)) (k k2 : κ) (v : α)
    (h : k ≠ k2) : aget (aset l k v) k2 = aget l k2 := by
  have h2 : k2 ≠ k := Ne.symm h
  induction l with
  | nil => simp [aget, aset, h]
  | cons p t ih =>
    obtain ⟨k0, v0⟩ := p
    by_cases h0 : k0 = k
    · subst h0
      simp [aset, aget, h, h2, ih]
    · by_cases hk2 : k0 = k2 <;> simp [aset, aget, h, h2, h0, hk2, ih]

theorem aget_aremove_self {κ α : Type} [DecidableEq κ] (l : List (κ × α)) (k : κ) :
    aget (aremove l k) k = none := by
  induction l with
  | nil => simp [aget, aremove]
  | cons p t ih =>
    obtain ⟨k0, v0⟩ := p
    by_cases h : k0 = k <;> simp [aremove, aget, h, ih]

theorem aget_aremove_ne {κ α : Type} [DecidableEq κ] (l : List (κ × α)) (k k2 : κ)
    (h : k ≠ k2) : aget (aremove l k) k2 = aget l k2 := by
  have h2 : k2 ≠ k := Ne.symm h
  induction l with
  | nil => simp [aremove]
  | cons p t ih =>
    obtain ⟨k0, v0⟩ := p
    by_cases h0 : k0 = k
    · subst h0
      simp [aremove, aget, h, h2, ih]
    · by_cases hk2 : k0 = k2 <;> simp [aremove, aget, h, h2, h0, hk2, ih]

theorem aset_aset_self {κ α : Type} [DecidableEq κ] (l : List (κ × α)) (k : κ) (v w : α) :
    aset (aset l k v) k w = aset l k w := by
  induction l with
  | nil => simp [aset]
  | cons p t ih =>
    obtain ⟨k0, v0⟩ := p
    by_cases h : k0 = k <;> simp [aset, h, ih]

theorem aget_heapSetStatus_ne (h : Heap) (id id2 : String) (st : NotificationStatus)
    (hne : id ≠ id2) : aget (heapSetStatus h id st) id2 = aget h id2 := by
  unfold heapSetStatus
  cases hg : aget h id with
  | none => rfl
  | some n => exact aget_aset_ne h id id2 _ hne

theorem aget_heapSetStatus_self (h : Heap) (id : String) (st : NotificationStatus)
    (n : Notification) (hg : aget h id = some n) :
    aget (heapSetStatus h id st) id = some { n with status := st } := by
  unfold heapSetStatus
  rw [hg]
  exact aget_aset_self h id _

/-! Drain helper. -/

theorem drain_of_empty (c : Bool) (t : Int) (outcomes : Int → AttemptOutcome) (fuel : Nat)
    (st : ServiceState) (h : st.queue.buf = []) : drain c t outcomes fuel st = st := by
  cases fuel with
  | zero => rfl
  | succ fuel => simp [drain, h]

/-! ### C3 — a canceled notification is still delivered by the worker

The service has no store check in processNotification: the worker invokes
the adapter on the stale envelope of a canceled (failed) notification, and a
successful adapter call marks the canceled notification sent. -/

/-- C3: in the concrete trace, the cancel marks the notification failed with
lastError cancelled by user, yet the worker that dequeues the stale envelope
invokes the adapter and the notification ends sent with sentAt set — the
mandatory store check the spec requires does not exist in the code. -/
theorem c3_canceled_notification_delivered :
    (aget c3AfterCancel.notifications "n1").map (fun n => n.status) =
      some NotificationStatus.failed ∧
    (aget c3AfterCancel.notifications "n1").map (fun n => n.lastError) =
      some "cancelled by user" ∧
    (aget c3Final.notifications "n1").map (fun n => n.status) =
      some NotificationStatus.sent ∧
    (aget c3Final.notifications "n1").map (fun n => n.sentAt) = some (some 7) := by
  decide

/-! ### C4 — cancel on an already-failed notification mutates lastError -/

/-- C4 counterexample: the notification failed with lastError boom; cancel
returns ok but overwrites lastError with cancelled by user, so cancel is not
idempotent on lastError as claimed. -/
theorem c4_counterexample :
    (aget c4Failed.notifications "n1").map (fun n => n.status) =
      some NotificationStatus.failed ∧
    (aget c4Failed.notifications "n1").map (fun n => n.lastError) = some "boom" ∧
    c4AfterCancel.2 = none ∧
    (aget c4AfterCancel.1.notifications "n1").map (fun n => n.lastError) =
      some "cancelled by user" := by
  decide

/-- C4 amended: canceling an already-failed notification returns ok, keeps
the status failed, but overwrites lastError with cancelled by user; canceling
a sent notification returns an error and leaves the whole state unchanged. -/
theorem c4_amended (st : ServiceState) (id : String) (n : Notification)
    (hget : aget st.notifications id = some n) :
    (n.status = .failed →
      (CancelNotification st id).2 = none ∧
      aget (CancelNotification st id).1.notifications id =
        some { n with status := .failed, lastError := "cancelled by user" }) ∧
    (n.status = .sent →
      CancelNotification st id = (st, some "notification already sent")) := by
  constructor
  · intro hf
    have hns : ¬ n.status = NotificationStatus.sent := by
      rw [hf]
      intro hc
      cases hc
    unfold CancelNotification
    rw [hget]
    simp [hns, aget_aset_self]
  · intro hs
    unfold CancelNotification
    rw [hget]
    simp [hs]

/-- Witness for the amended C4 at a concrete failed and a concrete sent
notification. -/
theorem c4_witness :
    ((CancelNotification c4Failed "n1").2 = none ∧
      aget (CancelNotification c4Failed "n1").1.notifications "n1" =
        some { mkNotif "n1" 1 1 with status := .failed, lastError := "cancelled by user" }) := by
  have h := (c4_amended c4Failed "n1" { mkNotif "n1" 1 1 with status := .failed, lastError := "boom" }
    (by decide)).1 (by decide)
  simpa using h

/-! ### C6 — queue operations after close -/

/-- C6 counterexample: on a closed queue, ack, size and purge all return no
error, refuting the claim that every queue operation fails after close. -/
theorem c6_counterexample :
    c6ClosedQueue.closed = true ∧
    (qAck c6ClosedQueue [] 0).2.2 = none ∧
    (qSize c6ClosedQueue).2 = none ∧
    (qPurge c6ClosedQueue []).2.2 = none := by
  decide

/-- C6 amended: after close, enqueue, enqueueBatch and dequeue fail with the
queue-is-closed error, while ack, size and purge succeed without error (they
do not check the closed flag); nack with an unknown envelope id fails with
the message-not-found error. -/
theorem c6_amended (c rq : Bool) (q : LocalQueue) (h : Heap) (nid : String)
    (nids : List String) (mid k : Nat)
    (hcl : q.closed = true) (hk : aget q.messages k = none) :
    (qEnqueue c q h nid).2.2 = some "queue is closed" ∧
    (qEnqueueBatch c q h nids).2.2 = some "queue is closed" ∧
    (qDequeue q h).2.2.2 = some "queue is closed" ∧
    (qAck q h mid).2.2 = none ∧
    (qSize q).2 = none ∧
    (qPurge q h).2.2 = none ∧
    (qNack c q h k rq).2.2 = some ("message not found: " ++ toString k) := by
  refine ⟨?_, ?_, ?_, ?_, rfl, rfl, ?_⟩
  · simp [qEnqueue, hcl]
  · simp [qEnqueueBatch, hcl]
  · simp [qDequeue, hcl]
  · unfold qAck
    cases hm : aget q.messages mid <;> simp
  · unfold qNack
    rw [hk]

/-- Witness for the amended C6 on the concrete closed queue. -/
theorem c6_witness :
    (qEnqueue false c6ClosedQueue [] "a").2.2 = some "queue is closed" ∧
    (qEnqueueBatch false c6ClosedQueue [] ["a"]).2.2 = some "queue is closed" ∧
    (qDequeue c6ClosedQueue []).2.2.2 = some "queue is closed" ∧
    (qAck c6ClosedQueue [] 3).2.2 = none ∧
    (qSize c6ClosedQueue).2 = none ∧
    (qPurge c6ClosedQueue []).2.2 = none ∧
    (qNack false c6ClosedQueue [] 5 true).2.2 = some ("message not found: " ++ toString 5) :=
  c6_amended false true c6ClosedQueue [] "a" ["a"] 3 5 (by decide) (by decide)

/-! ### C7 — a failed enqueue leaves a dangling store entry -/

/-- C7: Send stores the notification before enqueueing and does not roll the
entry back when the enqueue fails; with the queue closed, Send fails yet the
store keeps the notification with status pending. -/
theorem c7_dangling_store_entry :
    (Send false c7ClosedState (mkNotif "n1" 0 3)).2 = false ∧
    aget (Send false c7ClosedState (mkNotif "n1" 0 3)).1.notifications "n1" =
      some (mkNotif "n1" 0 3) ∧
    (mkNotif "n1" 0 3).status = .pending := by
  decide

/-! ### C10 — an offset at least the number of matches is ignored -/

/-- C10: when the offset is at least the number of matching notifications,
ListNotifications skips the offset branch entirely and returns all matches,
subject only to the limit. -/
theorem c10_offset_ignored (st : ServiceState) (f : NotificationFilter)
    (hoff : ((matching st f).length : Int) ≤ f.offset) :
    ListNotifications st f = limitOnly f.limit (matching st f) := by
  unfold matching at hoff
  unfold ListNotifications limitOnly matching
  dsimp only
  rw [if_neg (by rintro ⟨h1, h2⟩; omega :
    ¬(0 < f.offset ∧ f.offset <
      (((st.notifications.map Prod.snd).filter (fun n => matchesFilter n f)).length : Int)))]

/-- Witness for C10: a state with one match and offset 5 returns the match. -/
theorem c10_witness :
    ListNotifications c10State c10Filter = limitOnly c10Filter.limit (matching c10State c10Filter) :=
  c10_offset_ignored c10State c10Filter (by decide)

/-! ### C9 — the recipient criterion is exact equality, not substring -/

/-- C9 counterexample: the filter recipient foo is a substring of the stored
recipient foobar, so the claimed substring semantics would return the
notification, but ListNotifications returns nothing. -/
theorem c9_counterexample :
    specRecipientMatch c9Filter c9Notif = true ∧
    aget c9State.notifications "n1" = some c9Notif ∧
    ListNotifications c9State c9Filter = [] := by
  decide

/-- C9 amended: for a filter whose only criterion is a non-empty recipient
list, ListNotifications returns exactly the stored notifications having some
recipient entry equal to some filter entry. -/
theorem c9_amended (st : ServiceState) (f : NotificationFilter)
    (hids : f.ids = []) (hty : f.types = []) (hst : f.statuses = [])
    (hca : f.createdAfter = none) (hcb : f.createdBefore = none)
    (hl : f.limit = 0) (ho : f.offset = 0) (hr : f.recipients ≠ []) :
    ListNotifications st f =
      (st.notifications.map Prod.snd).filter
        (fun n => f.recipients.any (fun fr => n.recipients.contains fr)) := by
  unfold ListNotifications
  simp only [ho, hl, lt_self_iff_false, false_and, if_false]
  apply List.filter_congr
  intro n _
  unfold matchesFilter
  rw [hids, hty, hst, hca, hcb]
  cases hrr : f.recipients with
  | nil => exact absurd hrr hr
  | cons a t => simp

/-- Witness for the amended C9 on a concrete state where the filter entry
equals a recipient entry exactly. -/
theorem c9_witness :
    ListNotifications c9State { c9Filter with recipients := ["foobar"] } =
      (c9State.notifications.map Prod.snd).filter
        (fun n => ({ c9Filter with recipients := ["foobar"] } : NotificationFilter).recipients.any
          (fun fr => n.recipients.contains fr)) :=
  c9_amended c9State { c9Filter with recipients := ["foobar"] }
    rfl rfl rfl rfl rfl rfl rfl (by decide)

/-! ### C1 and C2 — retry accounting of the worker loop -/

theorem workerStep_singleState_fail (n : Notification) (eid : Nat) (att : Int) (nid : Nat)
    (t : Int) (outcomes : Int → AttemptOutcome) (e : Option String) (r : SendResult)
    (hout : outcomes (att + 1) = .attempt e r) (hfail : (e.isSome || !r.success) = true) :
    ∃ le : String,
      workerStep false t outcomes (singleState n eid att nid) =
        if n.retryCount + 1 < n.maxRetries then
          singleState
            { n with
              retryCount := n.retryCount + 1
              status := .retrying
              lastError := le }
            eid (att + 1) nid
        else
          { notifications :=
              [(n.id,
                { n with
                  retryCount := n.retryCount + 1
                  status := .failed
                  lastError := le })]
            queue := { buf := [], messages := [], nextId := nid, closed := false } } := by
  cases e with
  | some se =>
    refine ⟨se, ?_⟩
    by_cases hlt : n.retryCount + 1 < n.maxRetries <;>
      simp [workerStep, qDequeue, processNotification, qNack, qAck, singleState,
        heapSetStatus, aget, aset, aremove, hout, hlt]
  | none =>
    have hrs : r.success = false := by simpa using hfail
    refine ⟨r.error, ?_⟩
    by_cases hlt : n.retryCount + 1 < n.maxRetries <;>
      simp [workerStep, qDequeue, processNotification, qNack, qAck, singleState,
        heapSetStatus, aget, aset, aremove, hout, hrs, hlt]

theorem workerStep_singleState_ok (n : Notification) (eid : Nat) (att : Int) (nid : Nat)
    (t : Int) (outcomes : Int → AttemptOutcome) (e : Option String) (r : SendResult)
    (hout : outcomes (att + 1) = .attempt e r) (hok : (e.isSome || !r.success) = false) :
    workerStep false t outcomes (singleState n eid att nid) =
      { notifications := [(n.id, { n with status := .sent, sentAt := some t })]
        queue := { buf := [], messages := [], nextId := nid, closed := false } } := by
  simp [workerStep, qDequeue, processNotification, qNack, qAck, singleState,
    heapSetStatus, aget, aset, aremove, hout, hok]

theorem drain_singleState_fail (outcomes : Int → AttemptOutcome) (t : Int)
    (hfail : ∀ a, isFailedAttempt (outcomes a) = true) :
    ∀ (fuel : Nat) (n : Notification) (eid : Nat) (att : Int) (nid : Nat),
    n.retryCount < n.maxRetries →
    (n.maxRetries - n.retryCount).toNat ≤ fuel →
    ∃ nf, drain false t outcomes fuel (singleState n eid att nid) =
        { notifications := [(n.id, nf)],
          queue := { buf := [], messages := [], nextId := nid, closed := false } } ∧
      nf.retryCount = n.maxRetries ∧ nf.status = .failed ∧ nf.maxRetries = n.maxRetries := by
  intro fuel
  induction fuel with
  | zero =>
    intro n eid att nid hlt hfuel
    exfalso
    omega
  | succ fuel ih =>
    intro n eid att nid hlt hfuel
    obtain ⟨e, r, hout, hf⟩ :
        ∃ e r, outcomes (att + 1) = .attempt e r ∧ (e.isSome || !r.success) = true := by
      have hh := hfail (att + 1)
      cases ho : outcomes (att + 1) with
      | createFailed s =>
        rw [ho] at hh
        simp [isFailedAttempt] at hh
      | attempt e r =>
        rw [ho] at hh
        exact ⟨e, r, rfl, by simpa [isFailedAttempt] using hh⟩
    obtain ⟨le, hstep⟩ := workerStep_singleState_fail n eid att nid t outcomes e r hout hf
    have hne : (singleState n eid att nid).queue.buf.isEmpty = false := rfl
    simp only [drain, hne, Bool.false_eq_true, if_false]
    by_cases hlt2 : n.retryCount + 1 < n.maxRetries
    · rw [hstep, if_pos hlt2]
      obtain ⟨nf, hd, h1, h2, h3⟩ := ih
        { n with
          retryCount := n.retryCount + 1
          status := .retrying
          lastError := le }
        eid (att + 1) nid (by simpa using hlt2) (by simp; omega)
      exact ⟨nf, by simpa using hd, by simpa using h1, h2, by simpa using h3⟩
    · rw [hstep, if_neg hlt2]
      rw [drain_of_empty _ _ _ _ _ rfl]
      refine ⟨_, rfl, ?_, rfl, rfl⟩
      simp only
      omega

theorem drain_singleState_succeed (outcomes : Int → AttemptOutcome) (t : Int) (k : Int)
    (hfail : ∀ a, a < k → isFailedAttempt (outcomes a) = true)
    (hsucc : isSuccessAttempt (outcomes k) = true) :
    ∀ (fuel : Nat) (n : Notification) (eid : Nat) (nid : Nat),
    n.retryCount ≤ k - 1 → k ≤ n.maxRetries →
    (k - n.retryCount).toNat ≤ fuel →
    ∃ nf, drain false t outcomes fuel (singleState n eid n.retryCount nid) =
        { notifications := [(n.id, nf)],
          queue := { buf := [], messages := [], nextId := nid, closed := false } } ∧
      nf.status = .sent ∧ nf.sentAt = some t ∧ nf.retryCount = k - 1 := by
  intro fuel
  induction fuel with
  | zero =>
    intro n eid nid hle hkm hfuel
    exfalso
    omega
  | succ fuel ih =>
    intro n eid nid hle hkm hfuel
    have hne : (singleState n eid n.retryCount nid).queue.buf.isEmpty = false := rfl
    simp only [drain, hne, Bool.false_eq_true, if_false]
    by_cases hk : n.retryCount = k - 1
    · obtain ⟨e, r, hout, hok⟩ :
          ∃ e r, outcomes (n.retryCount + 1) = .attempt e r ∧ (e.isSome || !r.success) = false := by
        have hk1 : n.retryCount + 1 = k := by omega
        rw [hk1]
        cases ho : outcomes k with
        | createFailed s =>
          rw [ho] at hsucc
          simp [isSuccessAttempt] at hsucc
        | attempt e r =>
          rw [ho] at hsucc
          simp only [isSuccessAttempt] at hsucc
          refine ⟨e, r, rfl, ?_⟩
          cases e with
          | none => simpa using hsucc
          | some s => simp at hsucc
      rw [workerStep_singleState_ok n eid n.retryCount nid t outcomes e r hout hok]
      rw [drain_of_empty _ _ _ _ _ rfl]
      exact ⟨_, rfl, rfl, rfl, by simpa using hk⟩
    · have hlt : n.retryCount < k - 1 := by omega
      obtain ⟨e, r, hout, hf⟩ :
          ∃ e r, outcomes (n.retryCount + 1) = .attempt e r ∧ (e.isSome || !r.success) = true := by
        have hh := hfail (n.retryCount + 1) (by omega)
        cases ho : outcomes (n.retryCount + 1) with
        | createFailed s =>
          rw [ho] at hh
          simp [isFailedAttempt] at hh
        | attempt e r =>
          rw [ho] at hh
          exact ⟨e, r, rfl, by simpa [isFailedAttempt] using hh⟩
      obtain ⟨le, hstep⟩ := workerStep_singleState_fail n eid n.retryCount nid t outcomes e r hout hf
      rw [hstep, if_pos (by omega)]
      obtain ⟨nf, hd, h1, h2, h3⟩ := ih
        { n with
          retryCount := n.retryCount + 1
          status := .retrying
          lastError := le }
        eid nid (by simp; omega) (by simpa using hkm) (by simp; omega)
      refine ⟨nf, ?_, h1, h2, h3⟩
      simpa using hd

/-- A freshly sent notification on the empty service becomes the canonical
single-notification state: stored with status queued and one envelope. -/
theorem send_emptyState (n : Notification) :
    (Send false emptyState n).1 = singleState { n with status := .queued } 0 0 1 := by
  unfold Send storeNotification qEnqueue emptyState emptyQueue singleState
  dsimp only
  unfold heapSetStatus
  simp [aget, aset]

/-- C1 counterexample: a notification with maxRetries 0 processed by an
always-failing adapter ends failed with retryCount 1, not retryCount equal
to maxRetries 0. -/
theorem c1_counterexample :
    (aget c1Trace.notifications "n1").map (fun n => (n.retryCount, n.maxRetries)) =
      some ((1 : Int), (0 : Int)) ∧
    (aget c1Trace.notifications "n1").map (fun n => n.status) =
      some NotificationStatus.failed := by
  decide

/-- C1 amended: for maxRetries at least 1 and initial retryCount 0, a
notification whose adapter fails on every attempt ends, after the pool
drains, with retryCount equal to maxRetries and status failed. -/
theorem c1_amended (n : Notification) (outcomes : Int → AttemptOutcome) (t : Int) (fuel : Nat)
    (hfail : ∀ a, isFailedAttempt (outcomes a) = true)
    (h0 : n.retryCount = 0) (h1 : 1 ≤ n.maxRetries)
    (hfuel : n.maxRetries.toNat ≤ fuel) :
    ∃ nf, aget (drain false t outcomes fuel (Send false emptyState n).1).notifications n.id
        = some nf ∧ nf.retryCount = n.maxRetries ∧ nf.status = .failed := by
  rw [send_emptyState]
  obtain ⟨nf, hd, h1f, h2f, h3f⟩ := drain_singleState_fail outcomes t hfail fuel
    { n with status := .queued } 0 0 1 (by simp [h0]; omega) (by simp [h0]; omega)
  refine ⟨nf, ?_, by simpa using h1f, h2f⟩
  rw [hd]
  simp [aget]

/-- Witness for the amended C1 at maxRetries 2 and a concrete failing
adapter. -/
theorem c1_witness :
    ∃ nf, aget (drain false 0 (fun _ => failOut) 2
        (Send false emptyState (mkNotif "w1" 0 2)).1).notifications (mkNotif "w1" 0 2).id
      = some nf ∧ nf.retryCount = (mkNotif "w1" 0 2).maxRetries ∧ nf.status = .failed :=
  c1_amended (mkNotif "w1" 0 2) (fun _ => failOut) 0 2 (fun _ => rfl) rfl
    (by decide) (by decide)

/-- C2 counterexample: with maxRetries 1, an adapter that would succeed on
attempt 2 = maxRetries + 1 never gets that attempt; the notification ends
failed with retryCount 1 instead of sent. -/
theorem c2_counterexample :
    (aget c2Trace.notifications "n1").map (fun n => n.status) =
      some NotificationStatus.failed ∧
    (aget c2Trace.notifications "n1").map (fun n => (n.retryCount, n.maxRetries, n.sentAt)) =
      some ((1 : Int), (1 : Int), (none : Option Int)) := by
  decide

/-- C2 amended: if the adapter fails on attempts below k and succeeds on the
k-th attempt with 1 ≤ k ≤ maxRetries (not maxRetries + 1), then after the
pool drains the notification is sent, sentAt is set, and retryCount is
k - 1. -/
theorem c2_amended (n : Notification) (k : Int) (outcomes : Int → AttemptOutcome)
    (t : Int) (fuel : Nat)
    (hfail : ∀ a, a < k → isFailedAttempt (outcomes a) = true)
    (hsucc : isSuccessAttempt (outcomes k) = true)
    (h0 : n.retryCount = 0) (hk1 : 1 ≤ k) (hk2 : k ≤ n.maxRetries)
    (hfuel : k.toNat ≤ fuel) :
    ∃ nf, aget (drain false t outcomes fuel (Send false emptyState n).1).notifications n.id
        = some nf ∧ nf.status = .sent ∧ nf.sentAt = some t ∧ nf.retryCount = k - 1 := by
  rw [send_emptyState]
  have hrc : ({ n with status := NotificationStatus.queued } : Notification).retryCount = 0 := h0
  obtain ⟨nf, hd, h1f, h2f, h3f⟩ := drain_singleState_succeed outcomes t k hfail hsucc fuel
    { n with status := .queued } 0 1 (by simp [h0]; omega) (by simpa using hk2)
    (by simp [h0]; omega)
  rw [h0]
  rw [hrc] at hd
  refine ⟨nf, ?_, h1f, h2f, h3f⟩
  rw [hd]
  simp [aget]

/-- Witness for the amended C2: success on attempt 2 with maxRetries 3. -/
theorem c2_witness :
    ∃ nf, aget (drain false 7 (fun a => if a < 2 then failOut else okOut) 3
        (Send false emptyState (mkNotif "w2" 0 3)).1).notifications (mkNotif "w2" 0 3).id
      = some nf ∧ nf.status = .sent ∧ nf.sentAt = some 7 ∧ nf.retryCount = 2 - 1 :=
  c2_amended (mkNotif "w2" 0 3) 2 (fun a => if a < 2 then failOut else okOut) 7 3
    (fun a ha => by simp only [if_pos ha]; rfl) (by decide) rfl (by decide) (by decide)
    (by decide)

/-! ### C5 — the retry-accounting invariant over reachable states -/

theorem aget_aset_cases {κ α : Type} [DecidableEq κ] (l : List (κ × α)) (k k2 : κ) (v : α) :
    aget (aset l k v) k2 = if k = k2 then some v else aget l k2 := by
  by_cases h : k = k2
  · subst h
    simp [aget_aset_self]
  · simp [h, aget_aset_ne _ _ _ _ h]

theorem aget_aremove_cases {κ α : Type} [DecidableEq κ] (l : List (κ × α)) (k k2 : κ) :
    aget (aremove l k) k2 = if k = k2 then none else aget l k2 := by
  by_cases h : k = k2
  · subst h
    simp [aget_aremove_self]
  · simp [h, aget_aremove_ne _ _ _ h]

theorem aget_heapSetStatus_cases (h : Heap) (id id2 : String) (st : NotificationStatus) :
    aget (heapSetStatus h id st) id2 =
      if id = id2 then Option.map (fun n => { n with status := st }) (aget h id2)
      else aget h id2 := by
  unfold heapSetStatus
  by_cases he : id = id2
  · subst he
    cases hg : aget h id with
    | none => simp [hg]
    | some n => simp [hg, aget_aset_self]
  · cases hg : aget h id with
    | none => simp [he]
    | some n => simp [he, aget_aset_ne _ _ _ _ he]

theorem heapSetStatus_aset_self (h : Heap) (k : String) (v : Notification)
    (st : NotificationStatus) :
    heapSetStatus (aset h k v) k st = aset h k { v with status := st } := by
  simp [heapSetStatus, aget_aset_self, aset_aset_self]

theorem inv_init : Inv ⟨⟨[], emptyQueue⟩, []⟩ := by
  refine ⟨?_, ?_, ?_, ?_, ?_, ?_, ?_, ?_⟩ <;> simp [live, emptyQueue, aget]

/-- Dropping an in-flight envelope while leaving the service state unchanged
preserves the invariant. -/
theorem inv_shrink (svc : ServiceState) (l1 l2 : List QueueMessage) (m : QueueMessage)
    (hInv : Inv ⟨svc, l1 ++ m :: l2⟩) : Inv ⟨svc, l1 ++ l2⟩ := by
  obtain ⟨i0, i1, i2, i3, i4, i5, i6, i7⟩ := hInv
  have hsub : List.Sublist (live ⟨svc, l1 ++ l2⟩) (live ⟨svc, l1 ++ m :: l2⟩) := by
    unfold live
    exact ((List.sublist_cons_self m l2).append_left l1).append_left svc.queue.buf
  refine ⟨i0, ?_, i2, ?_, ?_, ?_, ?_, i7⟩
  · intro m2 hm2
    exact i1 m2 (hsub.subset hm2)
  · exact i3.sublist (hsub.map _)
  · exact i4.sublist (hsub.map _)
  · intro m2 hm2
    exact i5 m2 (hsub.subset hm2)
  · intro m2 n hm2 hg
    exact i6 m2 n (hsub.subset hm2) hg

/-- Storing a fresh non-active notification (the failed-enqueue paths of
Send) preserves the invariant. -/
theorem inv_store_only (s : SysState) (n : Notification) (hInv : Inv s)
    (hfresh : aget s.svc.notifications n.id = none)
    (hmax : 1 ≤ n.maxRetries) (hact : ¬ activeStatus n) :
    Inv ⟨⟨aset s.svc.notifications n.id n, s.svc.queue⟩, s.inflight⟩ := by
  obtain ⟨i0, i1, i2, i3, i4, i5, i6, i7⟩ := hInv
  have hne : ∀ m2, m2 ∈ live s → m2.notifId ≠ n.id := by
    intro m2 hm2 hc
    have h5 := i5 m2 hm2
    rw [hc, hfresh] at h5
    cases h5
  unfold Inv live
  dsimp only
  refine ⟨?_, i1, i2, i3, i4, ?_, ?_, ?_⟩
  · intro id2 n2 hg
    rw [aget_aset_cases] at hg
    by_cases he : n.id = id2
    · rw [if_pos he] at hg
      cases hg
      exact he
    · rw [if_neg he] at hg
      exact i0 id2 n2 hg
  · intro m2 hm2
    have hm2s : m2 ∈ live s := hm2
    rw [aget_aset_cases, if_neg (fun he => hne m2 hm2s he.symm)]
    exact i5 m2 hm2s
  · intro m2 n2 hm2 hg
    have hm2s : m2 ∈ live s := hm2
    rw [aget_aset_cases, if_neg (fun he => hne m2 hm2s he.symm)] at hg
    exact i6 m2 n2 hm2s hg
  · intro id2 n2 hg
    rw [aget_aset_cases] at hg
    by_cases he : n.id = id2
    · rw [if_pos he] at hg
      cases hg
      exact ⟨hmax, fun ha => absurd ha hact⟩
    · rw [if_neg he] at hg
      exact i7 id2 n2 hg

/-- A successful enqueue of a notification no live envelope references, with
reset retry accounting, preserves the invariant.  This covers the admitting
paths of both Send (fresh notification) and RetryNotification. -/
theorem inv_enqueue_ok (s : SysState) (id : String) (nv : Notification) (hInv : Inv s)
    (hne : ∀ m2, m2 ∈ live s → m2.notifId ≠ id)
    (hid : nv.id = id) (hrc : nv.retryCount = 0) (hmax : 1 ≤ nv.maxRetries) :
    Inv ⟨⟨aset s.svc.notifications id nv,
        { s.svc.queue with
          buf := s.svc.queue.buf ++ [⟨s.svc.queue.nextId, id, 0⟩]
          messages := aset s.svc.queue.messages s.svc.queue.nextId
            ⟨s.svc.queue.nextId, id, 0⟩
          nextId := s.svc.queue.nextId + 1 }⟩, s.inflight⟩ := by
  obtain ⟨i0, i1, i2, i3, i4, i5, i6, i7⟩ := hInv
  have hids : ∀ m2, m2 ∈ live s → m2.id < s.svc.queue.nextId :=
    fun m2 hm2 => (i2 _ _ (i1 m2 hm2)).2
  have hmem : ∀ m2 : QueueMessage,
      m2 ∈ (s.svc.queue.buf ++ [(⟨s.svc.queue.nextId, id, 0⟩ : QueueMessage)]) ++ s.inflight ↔
        m2 ∈ live s ∨ m2 = ⟨s.svc.queue.nextId, id, 0⟩ := by
    intro m2
    simp only [live, List.mem_append, List.mem_singleton]
    tauto
  unfold Inv live
  dsimp only
  refine ⟨?_, ?_, ?_, ?_, ?_, ?_, ?_, ?_⟩
  · intro id2 n2 hg
    rw [aget_aset_cases] at hg
    by_cases he : id = id2
    · rw [if_pos he] at hg
      cases hg
      exact hid.trans he
    · rw [if_neg he] at hg
      exact i0 id2 n2 hg
  · intro m2 hm2
    rcases (hmem m2).mp hm2 with hm2s | rfl
    · have hlt := hids m2 hm2s
      rw [aget_aset_cases, if_neg (by intro he; omega)]
      exact i1 m2 hm2s
    · rw [aget_aset_cases, if_pos rfl]
  · intro k m2 hg
    rw [aget_aset_cases] at hg
    by_cases he : s.svc.queue.nextId = k
    · rw [if_pos he] at hg
      cases hg
      exact ⟨he.symm, by dsimp only; omega⟩
    · rw [if_neg he] at hg
      have h2 := i2 k m2 hg
      exact ⟨h2.1, by omega⟩
  · rw [List.append_assoc, List.singleton_append, List.map_append, List.map_cons]
    refine List.nodup_middle.mpr (List.nodup_cons.mpr ⟨?_, ?_⟩)
    · intro hcmem
      rw [← List.map_append] at hcmem
      obtain ⟨m2, hm2, hid2⟩ := List.mem_map.mp hcmem
      have hlt := hids m2 hm2
      dsimp only at hid2
      omega
    · rw [← List.map_append]
      exact i3
  · rw [List.append_assoc, List.singleton_append, List.map_append, List.map_cons]
    refine List.nodup_middle.mpr (List.nodup_cons.mpr ⟨?_, ?_⟩)
    · intro hcmem
      rw [← List.map_append] at hcmem
      obtain ⟨m2, hm2, hid2⟩ := List.mem_map.mp hcmem
      exact hne m2 hm2 hid2
    · rw [← List.map_append]
      exact i4
  · intro m2 hm2
    rcases (hmem m2).mp hm2 with hm2s | rfl
    · rw [aget_aset_cases, if_neg (fun he => hne m2 hm2s he.symm)]
      exact i5 m2 hm2s
    · rw [aget_aset_cases]
      simp
  · intro m2 n2 hm2 hg
    rcases (hmem m2).mp hm2 with hm2s | rfl
    · rw [aget_aset_cases, if_neg (fun he => hne m2 hm2s he.symm)] at hg
      exact i6 m2 n2 hm2s hg
    · rw [aget_aset_cases, if_pos rfl] at hg
      cases hg
      omega
  · intro id2 n2 hg
    rw [aget_aset_cases] at hg
    by_cases he : id = id2
    · rw [if_pos he] at hg
      cases hg
      exact ⟨hmax, fun _ => by omega⟩
    · rw [if_neg he] at hg
      exact i7 id2 n2 hg

/-- The send transition preserves the invariant. -/
theorem inv_send (s : SysState) (n : Notification) (c : Bool) (hInv : Inv s)
    (hfresh : aget s.svc.notifications n.id = none)
    (hrc : n.retryCount = 0) (hmax : 1 ≤ n.maxRetries) (hp : n.status = .pending) :
    Inv ⟨(Send c s.svc n).1, s.inflight⟩ := by
  have hact : ¬ activeStatus n := by
    rintro (h | h | h) <;> rw [hp] at h <;> cases h
  have hne : ∀ m2, m2 ∈ live s → m2.notifId ≠ n.id := by
    intro m2 hm2 hc
    have h5 := hInv.2.2.2.2.2.1 m2 hm2
    rw [hc, hfresh] at h5
    cases h5
  unfold Send storeNotification qEnqueue
  dsimp only
  cases hcl : s.svc.queue.closed with
  | true =>
    simp only [if_true]
    exact inv_store_only s n hInv hfresh hmax hact
  | false =>
    cases hc : c with
    | true =>
      simp only [Bool.false_eq_true, if_false, if_true]
      exact inv_store_only s n hInv hfresh hmax hact
    | false =>
      simp only [Bool.false_eq_true, if_false]
      rw [heapSetStatus_aset_self]
      exact inv_enqueue_ok s n.id { n with status := .queued } hInv hne rfl hrc hmax

theorem isSome_heapSetStatus (h : Heap) (k x : String) (st : NotificationStatus) :
    (aget (heapSetStatus h k st) x).isSome = (aget h x).isSome := by
  rw [aget_heapSetStatus_cases]
  by_cases he : k = x
  · rw [if_pos he]
    cases aget h x <;> rfl
  · rw [if_neg he]

theorem aget_heapSetStatus_fields (h : Heap) (k id2 : String) (st : NotificationStatus)
    (n2 : Notification) (hg : aget (heapSetStatus h k st) id2 = some n2) :
    ∃ n0, aget h id2 = some n0 ∧ n2.id = n0.id ∧ n2.retryCount = n0.retryCount ∧
      n2.maxRetries = n0.maxRetries := by
  rw [aget_heapSetStatus_cases] at hg
  by_cases he : k = id2
  · rw [if_pos he] at hg
    cases hgx : aget h id2 with
    | none =>
      rw [hgx] at hg
      cases hg
    | some n0 =>
      rw [hgx, Option.map_some'] at hg
      cases hg
      exact ⟨n0, rfl, rfl, rfl, rfl⟩
  · rw [if_neg he] at hg
    exact ⟨n2, hg, rfl, rfl, rfl⟩

/-- The cancel transition preserves the invariant. -/
theorem inv_cancel (s : SysState) (id : String) (hInv : Inv s) :
    Inv ⟨(CancelNotification s.svc id).1, s.inflight⟩ := by
  obtain ⟨i0, i1, i2, i3, i4, i5, i6, i7⟩ := hInv
  unfold CancelNotification
  cases hg : aget s.svc.notifications id with
  | none =>
    dsimp only
    exact ⟨i0, i1, i2, i3, i4, i5, i6, i7⟩
  | some n =>
    dsimp only
    by_cases hs : n.status = NotificationStatus.sent
    · rw [if_pos hs]
      exact ⟨i0, i1, i2, i3, i4, i5, i6, i7⟩
    · rw [if_neg hs]
      unfold Inv live
      dsimp only
      refine ⟨?_, i1, i2, i3, i4, ?_, ?_, ?_⟩
      · intro id2 n2 hg2
        rw [aget_aset_cases] at hg2
        by_cases he : id = id2
        · rw [if_pos he] at hg2
          cases hg2
          exact (i0 id n hg).trans he
        · rw [if_neg he] at hg2
          exact i0 id2 n2 hg2
      · intro m2 hm2
        rw [aget_aset_cases]
        by_cases he : id = m2.notifId
        · rw [if_pos he]
          rfl
        · rw [if_neg he]
          exact i5 m2 hm2
      · intro m2 n2 hm2 hg2
        rw [aget_aset_cases] at hg2
        by_cases he : id = m2.notifId
        · rw [if_pos he] at hg2
          cases hg2
          exact i6 m2 n hm2 (by rw [← he]; exact hg)
        · rw [if_neg he] at hg2
          exact i6 m2 n2 hm2 hg2
      · intro id2 n2 hg2
        rw [aget_aset_cases] at hg2
        by_cases he : id = id2
        · rw [if_pos he] at hg2
          cases hg2
          refine ⟨(i7 id n hg).1, fun ha => ?_⟩
          rcases ha with hx | hx | hx <;> cases hx
        · rw [if_neg he] at hg2
          exact i7 id2 n2 hg2

/-- The dequeue transition preserves the invariant. -/
theorem inv_dequeue (s : SysState) (m : QueueMessage) (q : LocalQueue) (h : Heap)
    (e : Option String) (hInv : Inv s)
    (hdq : qDequeue s.svc.queue s.svc.notifications = (some m, q, h, e)) :
    Inv ⟨⟨h, q⟩, m :: s.inflight⟩ := by
  obtain ⟨i0, i1, i2, i3, i4, i5, i6, i7⟩ := hInv
  unfold qDequeue at hdq
  cases hcl : s.svc.queue.closed with
  | true =>
    rw [hcl] at hdq
    simp at hdq
  | false =>
    rw [hcl] at hdq
    simp only [Bool.false_eq_true, if_false] at hdq
    cases hbuf : s.svc.queue.buf with
    | nil =>
      rw [hbuf] at hdq
      simp at hdq
    | cons m0 rest =>
      rw [hbuf] at hdq
      dsimp only at hdq
      simp only [Prod.mk.injEq, Option.some.injEq] at hdq
      obtain ⟨hm, hq, hh, he⟩ := hdq
      subst hm
      subst hq
      subst hh
      have hm0 : m0 ∈ live s := by
        unfold live
        rw [hbuf]
        exact List.mem_append_left _ (List.mem_cons_self m0 rest)
      have hm0get := i1 m0 hm0
      have hlt : m0.id < s.svc.queue.nextId := (i2 _ _ hm0get).2
      have hmemold : ∀ x : QueueMessage, x ∈ rest ++ s.inflight → x ∈ live s := by
        intro x hx
        unfold live
        rw [hbuf]
        rcases List.mem_append.mp hx with hx | hx
        · exact List.mem_append_left _ (List.mem_cons_of_mem m0 hx)
        · exact List.mem_append_right _ hx
      have i3c : (m0.id :: ((rest ++ s.inflight).map (fun x => x.id))).Nodup := by
        unfold live at i3
        rw [hbuf, List.cons_append, List.map_cons] at i3
        exact i3
      have i4c : (m0.notifId :: ((rest ++ s.inflight).map (fun x => x.notifId))).Nodup := by
        unfold live at i4
        rw [hbuf, List.cons_append, List.map_cons] at i4
        exact i4
      have hidsne : ∀ x : QueueMessage, x ∈ rest ++ s.inflight → x.id ≠ m0.id := by
        intro x hx hc
        exact (List.nodup_cons.mp i3c).1 (List.mem_map.mpr ⟨x, hx, hc⟩)
      have hnidne : ∀ x : QueueMessage, x ∈ rest ++ s.inflight → x.notifId ≠ m0.notifId := by
        intro x hx hc
        exact (List.nodup_cons.mp i4c).1 (List.mem_map.mpr ⟨x, hx, hc⟩)
      unfold Inv live
      dsimp only
      have hmem2 : ∀ x : QueueMessage,
          x ∈ rest ++ ({ m0 with attempt := m0.attempt + 1 } : QueueMessage) :: s.inflight ↔
            x ∈ rest ++ s.inflight ∨ x = { m0 with attempt := m0.attempt + 1 } := by
        intro x
        simp only [List.mem_append, List.mem_cons]
        tauto
      refine ⟨?_, ?_, ?_, ?_, ?_, ?_, ?_, ?_⟩
      · intro id2 n2 hg2
        obtain ⟨n0, hg0, hid, _, _⟩ := aget_heapSetStatus_fields _ _ _ _ _ hg2
        rw [hid]
        exact i0 id2 n0 hg0
      · intro m2 hm2
        rcases (hmem2 m2).mp hm2 with hold | rfl
        · rw [aget_aset_cases, if_neg (fun hc => hidsne m2 hold hc.symm)]
          exact i1 m2 (hmemold m2 hold)
        · rw [aget_aset_cases, if_pos rfl]
      · intro k m2 hg2
        rw [aget_aset_cases] at hg2
        by_cases hk : m0.id = k
        · rw [if_pos hk] at hg2
          cases hg2
          exact ⟨hk.symm, by dsimp only; omega⟩
        · rw [if_neg hk] at hg2
          exact i2 k m2 hg2
      · rw [List.map_append, List.map_cons]
        refine List.nodup_middle.mpr ?_
        rw [← List.map_append]
        exact i3c
      · rw [List.map_append, List.map_cons]
        refine List.nodup_middle.mpr ?_
        rw [← List.map_append]
        exact i4c
      · intro m2 hm2
        rw [isSome_heapSetStatus]
        rcases (hmem2 m2).mp hm2 with hold | rfl
        · exact i5 m2 (hmemold m2 hold)
        · exact i5 m0 hm0
      · intro m2 n2 hm2 hg2
        obtain ⟨n0, hg0, _, hrc, hmr⟩ := aget_heapSetStatus_fields _ _ _ _ _ hg2
        rw [hrc, hmr]
        rcases (hmem2 m2).mp hm2 with hold | rfl
        · exact i6 m2 n0 (hmemold m2 hold) hg0
        · exact i6 m0 n0 hm0 hg0
      · intro id2 n2 hg2
        rw [aget_heapSetStatus_cases] at hg2
        by_cases he2 : m0.notifId = id2
        · rw [if_pos he2] at hg2
          cases hgx : aget s.svc.notifications id2 with
          | none =>
            rw [hgx] at hg2
            cases hg2
          | some n0 =>
            rw [hgx, Option.map_some'] at hg2
            cases hg2
            have hrc := i6 m0 n0 hm0 (by rw [he2]; exact hgx)
            exact ⟨(i7 id2 n0 hgx).1, fun _ => hrc⟩
        · rw [if_neg he2] at hg2
          exact i7 id2 n2 hg2

/-- The reset-and-store prefix of RetryNotification (its failed-enqueue
paths) preserves the invariant under the no-live-envelope guard. -/
theorem inv_store_reset (s : SysState) (id : String) (n nv : Notification) (hInv : Inv s)
    (hguard : ∀ m, m ∈ live s → m.notifId ≠ id)
    (hg : aget s.svc.notifications id = some n)
    (hid : nv.id = id) (hmr : nv.maxRetries = n.maxRetries)
    (hact : ¬ activeStatus nv) :
    Inv ⟨⟨aset s.svc.notifications id nv, s.svc.queue⟩, s.inflight⟩ := by
  obtain ⟨i0, i1, i2, i3, i4, i5, i6, i7⟩ := hInv
  unfold Inv live
  dsimp only
  refine ⟨?_, i1, i2, i3, i4, ?_, ?_, ?_⟩
  · intro id2 n2 hg2
    rw [aget_aset_cases] at hg2
    by_cases he : id = id2
    · rw [if_pos he] at hg2
      cases hg2
      exact hid.trans he
    · rw [if_neg he] at hg2
      exact i0 id2 n2 hg2
  · intro m2 hm2
    rw [aget_aset_cases, if_neg (fun he => hguard m2 hm2 he.symm)]
    exact i5 m2 hm2
  · intro m2 n2 hm2 hg2
    rw [aget_aset_cases, if_neg (fun he => hguard m2 hm2 he.symm)] at hg2
    exact i6 m2 n2 hm2 hg2
  · intro id2 n2 hg2
    rw [aget_aset_cases] at hg2
    by_cases he : id = id2
    · rw [if_pos he] at hg2
      cases hg2
      refine ⟨?_, fun ha => absurd ha hact⟩
      rw [hmr]
      exact (i7 id n hg).1
    · rw [if_neg he] at hg2
      exact i7 id2 n2 hg2

/-- The retry transition, guarded so that no envelope of the notification is
still live, preserves the invariant. -/
theorem inv_retry (s : SysState) (id : String) (c : Bool) (hInv : Inv s)
    (hguard : ∀ m, m ∈ live s → m.notifId ≠ id) :
    Inv ⟨(RetryNotification c s.svc id).1, s.inflight⟩ := by
  unfold RetryNotification
  cases hg : aget s.svc.notifications id with
  | none =>
    dsimp only
    exact hInv
  | some n =>
    dsimp only
    by_cases hs : n.status = NotificationStatus.sent
    · rw [if_pos hs]
      exact hInv
    · rw [if_neg hs]
      have hid : n.id = id := hInv.1 id n hg
      unfold Send storeNotification qEnqueue
      dsimp only
      rw [hid, aset_aset_self]
      cases hcl : s.svc.queue.closed with
      | true =>
        rw [if_pos rfl]
        dsimp only
        exact inv_store_reset s id n _ hInv hguard hg rfl rfl
          (by rintro (hx | hx | hx) <;> cases hx)
      | false =>
        rw [if_neg Bool.false_ne_true]
        cases hc : c with
        | true =>
          rw [if_pos rfl]
          dsimp only
          exact inv_store_reset s id n _ hInv hguard hg rfl rfl
            (by rintro (hx | hx | hx) <;> cases hx)
        | false =>
          rw [if_neg Bool.false_ne_true]
          dsimp only
          rw [heapSetStatus_aset_self]
          exact inv_enqueue_ok s id _ hInv hguard rfl rfl
            (hInv.2.2.2.2.2.2.2 id n hg).1

/-- If the live envelopes are pairwise distinct under f, an element of the
live list with the in-flight envelope removed differs from it under f. -/
theorem nodup_map_excl {α β : Type} (f : α → β) (B l1 l2 : List α) (m : α)
    (hnd : ((B ++ (l1 ++ m :: l2)).map f).Nodup) :
    ∀ x, x ∈ B ++ (l1 ++ l2) → f x ≠ f m := by
  intro x hx hc
  rw [← List.append_assoc, List.map_append, List.map_cons] at hnd
  have h1 := (List.nodup_cons.mp (List.nodup_middle.mp hnd)).1
  apply h1
  rw [← List.map_append]
  rw [← List.append_assoc] at hx
  rw [← hc]
  exact List.mem_map_of_mem f hx

/-- Terminal worker outcomes (nack without requeue, and ack): the envelope is
dropped from bookkeeping and the notification is overwritten with a
non-active value of the same id and maxRetries. -/
theorem inv_process_drop (s : SysState) (l1 l2 : List QueueMessage) (m : QueueMessage)
    (n nv : Notification) (hInv : Inv s)
    (hin : s.inflight = l1 ++ m :: l2)
    (hg : aget s.svc.notifications m.notifId = some n)
    (hid : nv.id = n.id) (hmr : nv.maxRetries = n.maxRetries)
    (hact : ¬ activeStatus nv) :
    Inv ⟨⟨aset s.svc.notifications m.notifId nv,
        { s.svc.queue with messages := aremove s.svc.queue.messages m.id }⟩, l1 ++ l2⟩ := by
  obtain ⟨i0, i1, i2, i3, i4, i5, i6, i7⟩ := hInv
  have hkey : n.id = m.notifId := i0 _ n hg
  have hlive : live s = s.svc.queue.buf ++ (l1 ++ m :: l2) := by
    unfold live
    rw [hin]
  have hsub : List.Sublist (s.svc.queue.buf ++ (l1 ++ l2)) (live s) := by
    rw [hlive]
    exact ((List.sublist_cons_self m l2).append_left l1).append_left s.svc.queue.buf
  have hidne : ∀ x, x ∈ s.svc.queue.buf ++ (l1 ++ l2) → x.id ≠ m.id := by
    intro x hx
    exact nodup_map_excl (fun y => y.id) _ l1 l2 m (by rw [← hlive]; exact i3) x hx
  have hnidne : ∀ x, x ∈ s.svc.queue.buf ++ (l1 ++ l2) → x.notifId ≠ m.notifId := by
    intro x hx
    exact nodup_map_excl (fun y => y.notifId) _ l1 l2 m (by rw [← hlive]; exact i4) x hx
  unfold Inv live
  dsimp only
  refine ⟨?_, ?_, ?_, ?_, ?_, ?_, ?_, ?_⟩
  · intro id2 n2 hg2
    rw [aget_aset_cases] at hg2
    by_cases he : m.notifId = id2
    · rw [if_pos he] at hg2
      cases hg2
      exact (hid.trans hkey).trans he
    · rw [if_neg he] at hg2
      exact i0 id2 n2 hg2
  · intro m2 hm2
    rw [aget_aremove_cases, if_neg (fun hc => hidne m2 hm2 hc.symm)]
    exact i1 m2 (hsub.subset hm2)
  · intro k m2 hg2
    rw [aget_aremove_cases] at hg2
    by_cases hk : m.id = k
    · rw [if_pos hk] at hg2
      cases hg2
    · rw [if_neg hk] at hg2
      exact i2 k m2 hg2
  · exact i3.sublist (hsub.map _)
  · exact i4.sublist (hsub.map _)
  · intro m2 hm2
    rw [aget_aset_cases, if_neg (fun hc => hnidne m2 hm2 hc.symm)]
    exact i5 m2 (hsub.subset hm2)
  · intro m2 n2 hm2 hg2
    rw [aget_aset_cases, if_neg (fun hc => hnidne m2 hm2 hc.symm)] at hg2
    exact i6 m2 n2 (hsub.subset hm2) hg2
  · intro id2 n2 hg2
    rw [aget_aset_cases] at hg2
    by_cases he : m.notifId = id2
    · rw [if_pos he] at hg2
      cases hg2
      refine ⟨?_, fun ha => absurd ha hact⟩
      rw [hmr]
      exact (i7 _ n hg).1
    · rw [if_neg he] at hg2
      exact i7 id2 n2 hg2

/-- A failed requeue (closed queue or cancelled context in the nack select):
the envelope is lost from the in-flight set while bookkeeping and buffer stay
as they were; the notification was overwritten with the retrying value. -/
theorem inv_process_drop_keep (s : SysState) (l1 l2 : List QueueMessage) (m : QueueMessage)
    (n nv : Notification) (hInv : Inv s)
    (hin : s.inflight = l1 ++ m :: l2)
    (hg : aget s.svc.notifications m.notifId = some n)
    (hid : nv.id = n.id) (hmr : nv.maxRetries = n.maxRetries)
    (hcond : activeStatus nv → nv.retryCount < nv.maxRetries) :
    Inv ⟨⟨aset s.svc.notifications m.notifId nv, s.svc.queue⟩, l1 ++ l2⟩ := by
  obtain ⟨i0, i1, i2, i3, i4, i5, i6, i7⟩ := hInv
  have hkey : n.id = m.notifId := i0 _ n hg
  have hlive : live s = s.svc.queue.buf ++ (l1 ++ m :: l2) := by
    unfold live
    rw [hin]
  have hsub : List.Sublist (s.svc.queue.buf ++ (l1 ++ l2)) (live s) := by
    rw [hlive]
    exact ((List.sublist_cons_self m l2).append_left l1).append_left s.svc.queue.buf
  have hnidne : ∀ x, x ∈ s.svc.queue.buf ++ (l1 ++ l2) → x.notifId ≠ m.notifId := by
    intro x hx
    exact nodup_map_excl (fun y => y.notifId) _ l1 l2 m (by rw [← hlive]; exact i4) x hx
  unfold Inv live
  dsimp only
  refine ⟨?_, ?_, i2, ?_, ?_, ?_, ?_, ?_⟩
  · intro id2 n2 hg2
    rw [aget_aset_cases] at hg2
    by_cases he : m.notifId = id2
    · rw [if_pos he] at hg2
      cases hg2
      exact (hid.trans hkey).trans he
    · rw [if_neg he] at hg2
      exact i0 id2 n2 hg2
  · intro m2 hm2
    exact i1 m2 (hsub.subset hm2)
  · exact i3.sublist (hsub.map _)
  · exact i4.sublist (hsub.map _)
  · intro m2 hm2
    rw [aget_aset_cases, if_neg (fun hc => hnidne m2 hm2 hc.symm)]
    exact i5 m2 (hsub.subset hm2)
  · intro m2 n2 hm2 hg2
    rw [aget_aset_cases, if_neg (fun hc => hnidne m2 hm2 hc.symm)] at hg2
    exact i6 m2 n2 (hsub.subset hm2) hg2
  · intro id2 n2 hg2
    rw [aget_aset_cases] at hg2
    by_cases he : m.notifId = id2
    · rw [if_pos he] at hg2
      cases hg2
      refine ⟨?_, hcond⟩
      rw [hmr]
      exact (i7 _ n hg).1
    · rw [if_neg he] at hg2
      exact i7 id2 n2 hg2

/-- A successful requeue: the envelope re-enters the back of the buffer and
the notification is overwritten with the retrying value, whose retryCount is
still below maxRetries. -/
theorem inv_process_requeue (s : SysState) (l1 l2 : List QueueMessage) (m : QueueMessage)
    (n nv : Notification) (hInv : Inv s)
    (hin : s.inflight = l1 ++ m :: l2)
    (hg : aget s.svc.notifications m.notifId = some n)
    (hid : nv.id = n.id) (hmr : nv.maxRetries = n.maxRetries)
    (hlt : nv.retryCount < nv.maxRetries) :
    Inv ⟨⟨aset s.svc.notifications m.notifId nv,
        { s.svc.queue with buf := s.svc.queue.buf ++ [m] }⟩, l1 ++ l2⟩ := by
  obtain ⟨i0, i1, i2, i3, i4, i5, i6, i7⟩ := hInv
  have hkey : n.id = m.notifId := i0 _ n hg
  have hlive : live s = s.svc.queue.buf ++ (l1 ++ m :: l2) := by
    unfold live
    rw [hin]
  have hsub : List.Sublist (s.svc.queue.buf ++ (l1 ++ l2)) (live s) := by
    rw [hlive]
    exact ((List.sublist_cons_self m l2).append_left l1).append_left s.svc.queue.buf
  have hm : m ∈ live s := by
    rw [hlive]
    exact List.mem_append_right _ (List.mem_append_right _ (List.mem_cons_self _ _))
  have hidne : ∀ x, x ∈ s.svc.queue.buf ++ (l1 ++ l2) → x.id ≠ m.id := by
    intro x hx
    exact nodup_map_excl (fun y => y.id) _ l1 l2 m (by rw [← hlive]; exact i3) x hx
  have hnidne : ∀ x, x ∈ s.svc.queue.buf ++ (l1 ++ l2) → x.notifId ≠ m.notifId := by
    intro x hx
    exact nodup_map_excl (fun y => y.notifId) _ l1 l2 m (by rw [← hlive]; exact i4) x hx
  have hmem2 : ∀ x : QueueMessage, x ∈ (s.svc.queue.buf ++ [m]) ++ (l1 ++ l2) ↔
      x ∈ s.svc.queue.buf ++ (l1 ++ l2) ∨ x = m := by
    intro x
    simp only [List.mem_append, List.mem_singleton]
    tauto
  unfold Inv live
  dsimp only
  refine ⟨?_, ?_, i2, ?_, ?_, ?_, ?_, ?_⟩
  · intro id2 n2 hg2
    rw [aget_aset_cases] at hg2
    by_cases he : m.notifId = id2
    · rw [if_pos he] at hg2
      cases hg2
      exact (hid.trans hkey).trans he
    · rw [if_neg he] at hg2
      exact i0 id2 n2 hg2
  · intro m2 hm2
    rcases (hmem2 m2).mp hm2 with hold | rfl
    · exact i1 m2 (hsub.subset hold)
    · exact i1 m2 hm
  · rw [List.append_assoc, List.singleton_append, List.map_append, List.map_cons]
    refine List.nodup_middle.mpr (List.nodup_cons.mpr ⟨?_, ?_⟩)
    · intro hcmem
      rw [← List.map_append] at hcmem
      obtain ⟨m2, hm2, hid2⟩ := List.mem_map.mp hcmem
      exact hidne m2 hm2 hid2
    · rw [← List.map_append]
      exact i3.sublist (hsub.map _)
  · rw [List.append_assoc, List.singleton_append, List.map_append, List.map_cons]
    refine List.nodup_middle.mpr (List.nodup_cons.mpr ⟨?_, ?_⟩)
    · intro hcmem
      rw [← List.map_append] at hcmem
      obtain ⟨m2, hm2, hid2⟩ := List.mem_map.mp hcmem
      exact hnidne m2 hm2 hid2
    · rw [← List.map_append]
      exact i4.sublist (hsub.map _)
  · intro m2 hm2
    rcases (hmem2 m2).mp hm2 with hold | rfl
    · rw [aget_aset_cases, if_neg (fun hc => hnidne m2 hold hc.symm)]
      exact i5 m2 (hsub.subset hold)
    · rw [aget_aset_cases, if_pos rfl]
      rfl
  · intro m2 n2 hm2 hg2
    rcases (hmem2 m2).mp hm2 with hold | rfl
    · rw [aget_aset_cases, if_neg (fun hc => hnidne m2 hold hc.symm)] at hg2
      exact i6 m2 n2 (hsub.subset hold) hg2
    · rw [aget_aset_cases, if_pos rfl] at hg2
      cases hg2
      exact hlt
  · intro id2 n2 hg2
    rw [aget_aset_cases] at hg2
    by_cases he : m.notifId = id2
    · rw [if_pos he] at hg2
      cases hg2
      refine ⟨?_, fun _ => hlt⟩
      rw [hmr]
      exact (i7 _ n hg).1
    · rw [if_neg he] at hg2
      exact i7 id2 n2 hg2

/-- A worker outcome on an in-flight envelope preserves the invariant. -/
theorem inv_process (s : SysState) (l1 l2 : List QueueMessage) (m : QueueMessage)
    (out : AttemptOutcome) (c : Bool) (t : Int) (hInv : Inv s)
    (hin : s.inflight = l1 ++ m :: l2) :
    Inv ⟨processNotification c t s.svc m out, l1 ++ l2⟩ := by
  have hm : m ∈ live s := by
    unfold live
    rw [hin]
    exact List.mem_append_right _ (List.mem_append_right _ (List.mem_cons_self _ _))
  have hmg : aget s.svc.queue.messages m.id = some m := hInv.2.1 m hm
  unfold processNotification
  cases hg : aget s.svc.notifications m.notifId with
  | none =>
    dsimp only
    exact inv_shrink s.svc l1 l2 m (by rw [← hin]; exact hInv)
  | some n =>
    dsimp only
    cases out with
    | createFailed e =>
      dsimp only
      unfold qNack
      rw [hmg]
      dsimp only
      rw [if_neg Bool.false_ne_true, heapSetStatus_aset_self]
      exact inv_process_drop s l1 l2 m n _ hInv hin hg rfl rfl
        (by rintro (hx | hx | hx) <;> cases hx)
    | attempt err res =>
      dsimp only
      by_cases hfl : (err.isSome || !res.success) = true
      · rw [if_pos hfl]
        by_cases hlt : n.retryCount + 1 < n.maxRetries
        · rw [if_pos hlt]
          unfold qNack
          rw [hmg]
          dsimp only
          rw [if_pos rfl, heapSetStatus_aset_self]
          cases hcl : s.svc.queue.closed with
          | true =>
            rw [if_pos rfl]
            exact inv_process_drop_keep s l1 l2 m n _ hInv hin hg rfl rfl (fun _ => hlt)
          | false =>
            rw [if_neg Bool.false_ne_true]
            cases hc : c with
            | true =>
              rw [if_pos rfl]
              exact inv_process_drop_keep s l1 l2 m n _ hInv hin hg rfl rfl (fun _ => hlt)
            | false =>
              rw [if_neg Bool.false_ne_true]
              exact inv_process_requeue s l1 l2 m n _ hInv hin hg rfl rfl hlt
        · rw [if_neg hlt]
          unfold qNack
          rw [hmg]
          dsimp only
          rw [if_neg (by intro hc; cases hc), heapSetStatus_aset_self]
          exact inv_process_drop s l1 l2 m n _ hInv hin hg rfl rfl
            (by rintro (hx | hx | hx) <;> cases hx)
      · rw [if_neg hfl]
        unfold qAck
        rw [hmg]
        dsimp only
        rw [heapSetStatus_aset_self]
        exact inv_process_drop s l1 l2 m n _ hInv hin hg rfl rfl
          (by rintro (hx | hx | hx) <;> cases hx)

/-- Every reachable state satisfies the inductive invariant. -/
theorem reachable_inv (s : SysState) (h : Reachable s) : Inv s := by
  induction h with
  | init => exact inv_init
  | send s n c _ hf h0 h1 hp ih => exact inv_send s n c ih hf h0 h1 hp
  | dequeueStep s m q hh e _ hdq ih => exact inv_dequeue s m q hh e ih hdq
  | processStep s l1 l2 m out c t _ hin ih => exact inv_process s l1 l2 m out c t ih hin
  | cancelStep s id _ ih => exact inv_cancel s id ih
  | retryStep s id c _ hg ih => exact inv_retry s id c ih hg

/-- C5 counterexample: with maxRetries 1, sending a notification and then
invoking retry twice while the earlier envelopes are still queued leaves
three envelopes aliasing it; after two failing deliveries, dequeueing the
third stale envelope puts the notification in status processing with
retryCount 2 greater than maxRetries 1 — every step being a plain service
operation, so the claimed invariant over all operation sequences fails. -/
theorem c5_counterexample :
    (aget c5Heap3 "n1").map (fun n => (n.status, n.retryCount, n.maxRetries)) =
      some (NotificationStatus.processing, (2 : Int), (1 : Int)) := by
  decide

/-- C5 amended: restricted to runs in which send admits only fresh
notifications (unknown id, status pending, retryCount 0, maxRetries at least
1) and retry runs only when no envelope of that notification is still queued
or in flight, every reachable state gives queued, processing and retrying
notifications retryCount at most maxRetries; and a delivery attempt failing
when retryCount equals maxRetries always moves the notification to the
terminal failed status. -/
theorem c5_amended :
    (∀ s, Reachable s → ∀ id n, aget s.svc.notifications id = some n →
        activeStatus n → n.retryCount ≤ n.maxRetries) ∧
    (∀ (c : Bool) (t : Int) (st : ServiceState) (m : QueueMessage) (n : Notification)
        (e : Option String) (r : SendResult),
      aget st.notifications m.notifId = some n →
      n.retryCount = n.maxRetries →
      (e.isSome || !r.success) = true →
      ∃ n2, aget (processNotification c t st m (.attempt e r)).notifications m.notifId =
          some n2 ∧ n2.status = .failed) := by
  constructor
  · intro s hr id n hg ha
    have hInv := reachable_inv s hr
    exact le_of_lt ((hInv.2.2.2.2.2.2.2 id n hg).2 ha)
  · intro c t st m n e r hg hrc hfl
    unfold processNotification
    rw [hg]
    dsimp only
    rw [if_pos hfl, if_neg (by omega : ¬ n.retryCount + 1 < n.maxRetries)]
    unfold qNack
    cases hmg : aget st.queue.messages m.id with
    | none =>
      dsimp only
      exact ⟨_, aget_aset_self _ _ _, rfl⟩
    | some m2 =>
      dsimp only
      rw [if_neg Bool.false_ne_true]
      dsimp only
      rw [aget_heapSetStatus_cases]
      by_cases he : m2.notifId = m.notifId
      · rw [if_pos he, aget_aset_self, Option.map_some']
        exact ⟨_, rfl, rfl⟩
      · rw [if_neg he, aget_aset_self]
        exact ⟨_, rfl, rfl⟩

/-- Witness for the amended C5: the invariant conclusion at the state
reached by one fresh send, and the terminal-failure conclusion at a concrete
exhausted notification. -/
theorem c5_witness :
    ({ mkNotif "a" 0 1 with status := NotificationStatus.queued } : Notification).retryCount ≤
      ({ mkNotif "a" 0 1 with status := NotificationStatus.queued } : Notification).maxRetries ∧
    ∃ n2, aget (processNotification false 0 (singleState (mkNotif "b" 1 1) 0 0 1)
        ⟨0, "b", 1⟩ (.attempt (some "x") { success := false, error := "" })).notifications "b" =
      some n2 ∧ n2.status = .failed := by
  constructor
  · exact c5_amended.1 ⟨(Send false ⟨[], emptyQueue⟩ (mkNotif "a" 0 1)).1, []⟩
      (Reachable.send ⟨⟨[], emptyQueue⟩, []⟩ (mkNotif "a" 0 1) false Reachable.init
        (by decide) (by decide) (by decide) (by decide))
      "a" { mkNotif "a" 0 1 with status := NotificationStatus.queued }
      (by decide) (Or.inl rfl)
  · exact c5_amended.2 false 0 (singleState (mkNotif "b" 1 1) 0 0 1) ⟨0, "b", 1⟩
      (mkNotif "b" 1 1) (some "x") { success := false, error := "" }
      (by decide) (by decide) (by decide)

/-! ### C8 — retry semantics -/

/-- C8: retry on a stored non-sent notification resets retryCount to 0, sets
status to pending, and re-runs the Send path: the notification is re-stored
and, when the queue admits it, re-enqueued under a fresh envelope with
status queued (status pending remains visible exactly when the enqueue is
refused); retry on a sent notification returns an error and leaves the state
unchanged. -/
theorem c8_retry_semantics (c : Bool) (st : ServiceState) (id : String) (n : Notification)
    (hget : aget st.notifications id = some n) (hid : n.id = id) :
    (n.status ≠ .sent →
      (st.queue.closed = false → c = false →
        (RetryNotification c st id).2 = none ∧
        aget (RetryNotification c st id).1.notifications id =
          some { n with retryCount := 0, status := .queued } ∧
        (RetryNotification c st id).1.queue.buf =
          st.queue.buf ++ [⟨st.queue.nextId, id, 0⟩]) ∧
      (st.queue.closed = true →
        aget (RetryNotification c st id).1.notifications id =
          some { n with retryCount := 0, status := .pending })) ∧
    (n.status = .sent →
      RetryNotification c st id = (st, some "notification already sent")) := by
  constructor
  · intro hns
    unfold RetryNotification Send storeNotification qEnqueue
    rw [hget]
    dsimp only
    rw [if_neg hns]
    dsimp only
    rw [hid, aset_aset_self]
    constructor
    · intro hcl hc
      rw [hcl, hc]
      rw [if_neg Bool.false_ne_true, if_neg Bool.false_ne_true]
      dsimp only
      rw [heapSetStatus_aset_self]
      refine ⟨rfl, ?_, rfl⟩
      rw [aget_aset_self]
    · intro hcl
      rw [hcl, if_pos rfl]
      dsimp only
      rw [aget_aset_self]
  · intro hs
    unfold RetryNotification
    rw [hget]
    dsimp only
    rw [if_pos hs]

/-- Witness for C8 on the concrete failed notification: retry succeeds,
resets the retry count, re-stores it as queued and re-enqueues it. -/
theorem c8_witness :
    (RetryNotification false c4Failed "n1").2 = none ∧
    aget (RetryNotification false c4Failed "n1").1.notifications "n1" =
      some { { mkNotif "n1" 1 1 with status := .failed, lastError := "boom" } with
        retryCount := 0, status := .queued } ∧
    (RetryNotification false c4Failed "n1").1.queue.buf =
      c4Failed.queue.buf ++ [⟨c4Failed.queue.nextId, "n1", 0⟩] :=
  ((c8_retry_semantics false c4Failed "n1"
      { mkNotif "n1" 1 1 with status := .failed, lastError := "boom" }
      (by decide) (by decide)).1 (by decide)).1 (by decide) rfl

end NotifierProof
